import Mathlib

/-!
Verification of `metasim/utils/humanoid_reward_util.py`.

The Python module is a pure, stateless library with two parallel backends:
`_sigmoids`/`tolerance` operate on numpy scalars/arrays, and
`_sigmoids_tensor`/`tolerance_tensor` operate on torch tensors.  All numpy
and torch operations involved (`exp`, `log`, `sqrt`, `cosh`, `arccosh`,
`arccos`, `cos`, `tanh`, `arctanh`, `where`, `logical_and`, `abs`,
arithmetic) act elementwise, so the semantics of a call is a real-valued
function applied independently to each element.  We embed that per-element
function over `ℝ`, with `Except Err` for the errors the source raises, and
lift elementwise over `List ℝ` for array/tensor inputs.

One branch of the tensor backend is not a clean twin: the cosine branch of
`_sigmoids_tensor` (source line 166) calls `np.where` on torch tensors
instead of `torch.where`.  That call coerces its arguments with
`np.asarray`, which raises outright on gradient-tracking or CUDA tensors,
and on plain CPU tensors returns a numpy ndarray — which `torch.where` at
source line 225 then rejects, since torch operations do not implicitly
convert ndarrays.  So the tensor backend's cosine path fails where the
array backend succeeds.  We track this with `TensorResult`, which records
whether a sigmoid branch produced a torch tensor or a numpy ndarray, and
with the `Err.typeError` failure raised when the ndarray reaches
`torch.where`.
-/

namespace HumanoidReward

/-- The distinct failures raised by the source.  The first four are the
`ValueError`s, identified by their messages: the `value_at_1` range check,
the unknown-sigmoid fallthrough, the bounds-order check, and the
negative-margin check.  `typeError` is the failure of the tensor backend's
cosine path: `np.asarray` raises on gradient-tracking/CUDA tensors inside
the `np.where` at source line 166, and on CPU tensors the ndarray that
`np.where` returns is rejected by `torch.where` at source line 225. -/
inductive Err where
  | invalidParam : Err
  | unknownShape : Err
  | invalidBounds : Err
  | invalidMargin : Err
  | typeError : Err
deriving DecidableEq

/-- Inverse hyperbolic cosine as computed by `np.arccosh` / `torch.arccosh`
on its domain `[1, ∞)`: `log (y + sqrt (y^2 - 1))`. -/
noncomputable def arccosh (y : ℝ) : ℝ := Real.log (y + Real.sqrt (y ^ 2 - 1))

/-- Inverse hyperbolic tangent as computed by `np.arctanh` / `torch.arctanh`
on its domain `(-1, 1)`: `log ((1 + t) / (1 - t)) / 2`. -/
noncomputable def arctanh (t : ℝ) : ℝ := Real.log ((1 + t) / (1 - t)) / 2

/-- The dispatch chain of `_sigmoids` (source lines 35-74): the eight shape
formulas, each with its `scale` derived from `value_at_1`, ending in the
unknown-shape `ValueError`.  `np.where(c, a, b)` is the elementwise
conditional, embedded as `if c then a else b`. -/
noncomputable def sigmoidBody (x value_at_1 : ℝ) (sigmoid : String) : Except Err ℝ :=
  if sigmoid = "gaussian" then
    let scale := Real.sqrt (-2 * Real.log value_at_1)
    Except.ok (Real.exp (-0.5 * (x * scale) ^ 2))
  else if sigmoid = "hyperbolic" then
    let scale := arccosh (1 / value_at_1)
    Except.ok (1 / Real.cosh (x * scale))
  else if sigmoid = "long_tail" then
    let scale := Real.sqrt (1 / value_at_1 - 1)
    Except.ok (1 / ((x * scale) ^ 2 + 1))
  else if sigmoid = "reciprocal" then
    let scale := 1 / value_at_1 - 1
    Except.ok (1 / (|x| * scale + 1))
  else if sigmoid = "cosine" then
    let scale := Real.arccos (2 * value_at_1 - 1) / Real.pi
    let scaled_x := x * scale
    Except.ok (if |scaled_x| < 1 then (1 + Real.cos (Real.pi * scaled_x)) / 2 else 0)
  else if sigmoid = "linear" then
    let scale := 1 - value_at_1
    let scaled_x := x * scale
    Except.ok (if |scaled_x| < 1 then 1 - scaled_x else 0)
  else if sigmoid = "quadratic" then
    let scale := Real.sqrt (1 - value_at_1)
    let scaled_x := x * scale
    Except.ok (if |scaled_x| < 1 then 1 - scaled_x ^ 2 else 0)
  else if sigmoid = "tanh_squared" then
    let scale := arctanh (Real.sqrt (1 - value_at_1))
    Except.ok (1 - Real.tanh (x * scale) ^ 2)
  else
    Except.error Err.unknownShape

/-- Embedding of `_sigmoids(x, value_at_1, sigmoid)` (source lines 12-74): the
`value_at_1` range validation (loose `0 <= v < 1` for cosine/linear/quadratic,
strict `0 < v < 1` otherwise) followed by the shape dispatch. -/
noncomputable def _sigmoids (x value_at_1 : ℝ) (sigmoid : String) : Except Err ℝ :=
  if sigmoid = "cosine" ∨ sigmoid = "linear" ∨ sigmoid = "quadratic" then
    if 0 ≤ value_at_1 ∧ value_at_1 < 1 then sigmoidBody x value_at_1 sigmoid
    else Except.error Err.invalidParam
  else
    if 0 < value_at_1 ∧ value_at_1 < 1 then sigmoidBody x value_at_1 sigmoid
    else Except.error Err.invalidParam

/-- The unnormalized excess distance `np.where(x < lower, lower - x, x - upper)`
computed in the positive-margin branch of `tolerance` (source line 115). -/
noncomputable def excess (x lower upper : ℝ) : ℝ := if x < lower then lower - x else x - upper

/-- Embedding of `tolerance(x, bounds, margin, sigmoid, value_at_margin)` (source
lines 77-118), per element: bounds and margin validation, the `margin == 0` hard
indicator, and otherwise the normalized excess distance `d` passed to
`_sigmoids`.  As in the source, `_sigmoids` is evaluated (and so may raise)
before the in-bounds mask selects `1.0`. -/
noncomputable def tolerance (x lower upper margin : ℝ) (sigmoid : String) (value_at_margin : ℝ) : Except Err ℝ :=
  if lower > upper then Except.error Err.invalidBounds
  else if margin < 0 then Except.error Err.invalidMargin
  else if margin = 0 then
    Except.ok (if lower ≤ x ∧ x ≤ upper then 1 else 0)
  else
    Except.map (fun s => if lower ≤ x ∧ x ≤ upper then 1 else s)
      (_sigmoids (excess x lower upper / margin) value_at_margin sigmoid)

/-- The runtime kind of the value a `_sigmoids_tensor` branch returns,
together with its numeric content: every branch returns a torch `tensor`
except the cosine branch, whose `np.where` call over torch tensors (source
line 166) yields a numpy `ndarray` instead of a tensor (when `np.asarray`
does not raise outright for a gradient-tracking/CUDA input — a case that
only fails earlier on the same path). -/
inductive TensorResult where
  | tensor : ℝ → TensorResult
  | ndarray : ℝ → TensorResult

/-- The dispatch chain of `_sigmoids_tensor` (source lines 122-186), the
torch counterpart of `sigmoidBody`.  `torch.sqrt`, `torch.log`,
`torch.arccosh`, `torch.cosh`, `torch.arccos`, `torch.cos`,
`torch.arctanh`, `torch.tanh` and `torch.pi` denote the same real
functions and constant as their numpy counterparts, and the `torch.where`
selects denote the elementwise conditional.  The cosine branch alone uses
`np.where` on torch tensors (source line 166), so its numerically
identical select comes back as a numpy `ndarray`, not a torch tensor. -/
noncomputable def sigmoidBodyTensor (x value_at_1 : ℝ) (sigmoid : String) : Except Err TensorResult :=
  if sigmoid = "gaussian" then
    let scale := Real.sqrt (-2 * Real.log value_at_1)
    Except.ok (TensorResult.tensor (Real.exp (-0.5 * (x * scale) ^ 2)))
  else if sigmoid = "hyperbolic" then
    let scale := arccosh (1 / value_at_1)
    Except.ok (TensorResult.tensor (1 / Real.cosh (x * scale)))
  else if sigmoid = "long_tail" then
    let scale := Real.sqrt (1 / value_at_1 - 1)
    Except.ok (TensorResult.tensor (1 / ((x * scale) ^ 2 + 1)))
  else if sigmoid = "reciprocal" then
    let scale := 1 / value_at_1 - 1
    Except.ok (TensorResult.tensor (1 / (|x| * scale + 1)))
  else if sigmoid = "cosine" then
    let scale := Real.arccos (2 * value_at_1 - 1) / Real.pi
    let scaled_x := x * scale
    Except.ok (TensorResult.ndarray
      (if |scaled_x| < 1 then (1 + Real.cos (Real.pi * scaled_x)) / 2 else 0))
  else if sigmoid = "linear" then
    let scale := 1 - value_at_1
    let scaled_x := x * scale
    Except.ok (TensorResult.tensor (if |scaled_x| < 1 then 1 - scaled_x else 0))
  else if sigmoid = "quadratic" then
    let scale := Real.sqrt (1 - value_at_1)
    let scaled_x := x * scale
    Except.ok (TensorResult.tensor (if |scaled_x| < 1 then 1 - scaled_x ^ 2 else 0))
  else if sigmoid = "tanh_squared" then
    let scale := arctanh (Real.sqrt (1 - value_at_1))
    Except.ok (TensorResult.tensor (1 - Real.tanh (x * scale) ^ 2))
  else
    Except.error Err.unknownShape

/-- Embedding of `_sigmoids_tensor(x, value_at_1, sigmoid)` (source lines 121-186):
validation (performed on the 0-dim tensor `value_at_1`, numerically the
same comparisons) followed by the torch shape dispatch. -/
noncomputable def _sigmoids_tensor (x value_at_1 : ℝ) (sigmoid : String) : Except Err TensorResult :=
  if sigmoid = "cosine" ∨ sigmoid = "linear" ∨ sigmoid = "quadratic" then
    if 0 ≤ value_at_1 ∧ value_at_1 < 1 then sigmoidBodyTensor x value_at_1 sigmoid
    else Except.error Err.invalidParam
  else
    if 0 < value_at_1 ∧ value_at_1 < 1 then sigmoidBodyTensor x value_at_1 sigmoid
    else Except.error Err.invalidParam

/-- Embedding of `tolerance_tensor` (source lines 189-229), per element of the input
tensor.  `torch.tensor(value_at_margin, device=x.device)` materializes the
scalar on the device without changing its value, so it is the identity on
the embedded real.  The `torch.where` at source line 225 accepts the
sigmoid result only when it is a torch tensor; the numpy ndarray produced
by the cosine branch is rejected with a `TypeError` (and on
gradient-tracking/CUDA tensors the same path already raised inside
`np.where`), modeled as `Err.typeError`. -/
noncomputable def tolerance_tensor_elem (x lower upper margin : ℝ) (sigmoid : String) (value_at_margin : ℝ) : Except Err ℝ :=
  if lower > upper then Except.error Err.invalidBounds
  else if margin < 0 then Except.error Err.invalidMargin
  else if margin = 0 then
    Except.ok (if lower ≤ x ∧ x ≤ upper then 1 else 0)
  else
    match _sigmoids_tensor (excess x lower upper / margin) value_at_margin sigmoid with
    | Except.error e => Except.error e
    | Except.ok (TensorResult.tensor r) =>
        Except.ok (if lower ≤ x ∧ x ≤ upper then 1 else r)
    | Except.ok (TensorResult.ndarray _) => Except.error Err.typeError

/-- A numpy value as `tolerance` sees it: either a Python scalar or an
array.  `tolerance` collapses its result to a plain float exactly when
`np.isscalar(x)` (source line 118). -/
inductive NpValue where
  | scalar : ℝ → NpValue
  | arr : List ℝ → NpValue

/-- Elementwise lift of `tolerance` to an array input: each element goes
through the same per-element computation, and any `ValueError` raised by a
call aborts the whole call with no partial result. -/
noncomputable def toleranceList (xs : List ℝ) (lower upper margin : ℝ) (sigmoid : String) (value_at_margin : ℝ) : Except Err (List ℝ) :=
  match xs with
  | [] => Except.ok []
  | x :: rest =>
    match tolerance x lower upper margin sigmoid value_at_margin,
          toleranceList rest lower upper margin sigmoid value_at_margin with
    | Except.ok y, Except.ok ys => Except.ok (y :: ys)
    | Except.error e, _ => Except.error e
    | _, Except.error e => Except.error e

/-- Dispatch of `tolerance` on a scalar-or-array input: `return float(value) if
np.isscalar(x) else value` (source line 118) — a scalar input yields a
plain scalar, an array input yields an array of the same shape. -/
noncomputable def toleranceNp (x : NpValue) (lower upper margin : ℝ) (sigmoid : String) (value_at_margin : ℝ) : Except Err NpValue :=
  match x with
  | NpValue.scalar r => Except.map NpValue.scalar (tolerance r lower upper margin sigmoid value_at_margin)
  | NpValue.arr rs => Except.map NpValue.arr (toleranceList rs lower upper margin sigmoid value_at_margin)

/-- Embedding of `tolerance_tensor` on a tensor input, elementwise: the result is
returned as-is (source line 229) — always a tensor, never collapsed to a
scalar. -/
noncomputable def tolerance_tensor (xs : List ℝ) (lower upper margin : ℝ) (sigmoid : String) (value_at_margin : ℝ) : Except Err (List ℝ) :=
  match xs with
  | [] => Except.ok []
  | x :: rest =>
    match tolerance_tensor_elem x lower upper margin sigmoid value_at_margin,
          tolerance_tensor rest lower upper margin sigmoid value_at_margin with
    | Except.ok y, Except.ok ys => Except.ok (y :: ys)
    | Except.error e, _ => Except.error e
    | _, Except.error e => Except.error e

/-- The eight recognized sigmoid kind identifiers. -/
def recognized (sigmoid : String) : Prop :=
  sigmoid = "gaussian" ∨ sigmoid = "hyperbolic" ∨ sigmoid = "long_tail" ∨
  sigmoid = "reciprocal" ∨ sigmoid = "cosine" ∨ sigmoid = "linear" ∨
  sigmoid = "quadratic" ∨ sigmoid = "tanh_squared"

/-- The range of `value_at_1` that the given kind's validation accepts:
`0 ≤ v < 1` for cosine/linear/quadratic, strict `0 < v < 1` otherwise. -/
def validValueAt (sigmoid : String) (v : ℝ) : Prop :=
  if sigmoid = "cosine" ∨ sigmoid = "linear" ∨ sigmoid = "quadratic" then
    0 ≤ v ∧ v < 1
  else
    0 < v ∧ v < 1

/-! ### Unfolding lemmas

The string dispatch in `sigmoidBody` reduces definitionally at each
literal kind. -/

lemma sigmoidBody_gaussian (x v : ℝ) :
    sigmoidBody x v ("gaussian")
      = Except.ok (Real.exp (-0.5 * (x * Real.sqrt (-2 * Real.log v)) ^ 2)) := rfl

lemma sigmoidBody_hyperbolic (x v : ℝ) :
    sigmoidBody x v ("hyperbolic") = Except.ok (1 / Real.cosh (x * arccosh (1 / v))) := rfl

lemma sigmoidBody_long_tail (x v : ℝ) :
    sigmoidBody x v ("long_tail") = Except.ok (1 / ((x * Real.sqrt (1 / v - 1)) ^ 2 + 1)) := rfl

lemma sigmoidBody_reciprocal (x v : ℝ) :
    sigmoidBody x v ("reciprocal") = Except.ok (1 / (|x| * (1 / v - 1) + 1)) := rfl

lemma sigmoidBody_cosine (x v : ℝ) :
    sigmoidBody x v ("cosine")
      = Except.ok (if |x * (Real.arccos (2 * v - 1) / Real.pi)| < 1
          then (1 + Real.cos (Real.pi * (x * (Real.arccos (2 * v - 1) / Real.pi)))) / 2
          else 0) := rfl

lemma sigmoidBody_linear (x v : ℝ) :
    sigmoidBody x v ("linear") = Except.ok (if |x * (1 - v)| < 1 then 1 - x * (1 - v) else 0) := rfl

lemma sigmoidBody_quadratic (x v : ℝ) :
    sigmoidBody x v ("quadratic")
      = Except.ok (if |x * Real.sqrt (1 - v)| < 1 then 1 - (x * Real.sqrt (1 - v)) ^ 2 else 0) := rfl

lemma sigmoidBody_tanh_squared (x v : ℝ) :
    sigmoidBody x v ("tanh_squared")
      = Except.ok (1 - Real.tanh (x * arctanh (Real.sqrt (1 - v))) ^ 2) := rfl

lemma validValueAt_gaussian (v : ℝ) : validValueAt ("gaussian") v ↔ 0 < v ∧ v < 1 := Iff.rfl

lemma validValueAt_hyperbolic (v : ℝ) : validValueAt ("hyperbolic") v ↔ 0 < v ∧ v < 1 := Iff.rfl

lemma validValueAt_long_tail (v : ℝ) : validValueAt ("long_tail") v ↔ 0 < v ∧ v < 1 := Iff.rfl

lemma validValueAt_reciprocal (v : ℝ) : validValueAt ("reciprocal") v ↔ 0 < v ∧ v < 1 := Iff.rfl

lemma validValueAt_cosine (v : ℝ) : validValueAt ("cosine") v ↔ 0 ≤ v ∧ v < 1 := Iff.rfl

lemma validValueAt_linear (v : ℝ) : validValueAt ("linear") v ↔ 0 ≤ v ∧ v < 1 := Iff.rfl

lemma validValueAt_quadratic (v : ℝ) : validValueAt ("quadratic") v ↔ 0 ≤ v ∧ v < 1 := Iff.rfl

lemma validValueAt_tanh_squared (v : ℝ) : validValueAt ("tanh_squared") v ↔ 0 < v ∧ v < 1 := Iff.rfl

lemma validValueAt_weak {s : String} {v : ℝ} (hv : validValueAt s v) : 0 ≤ v ∧ v < 1 := by
  unfold validValueAt at hv
  split at hv
  · exact hv
  · exact ⟨le_of_lt hv.1, hv.2⟩

lemma sigmoids_eq_body (x : ℝ) {v : ℝ} {s : String} (hv : validValueAt s v) :
    _sigmoids x v s = sigmoidBody x v s := by
  by_cases h : s = "cosine" ∨ s = "linear" ∨ s = "quadratic"
  · unfold validValueAt at hv
    rw [if_pos h] at hv
    unfold _sigmoids
    rw [if_pos h, if_pos hv]
  · unfold validValueAt at hv
    rw [if_neg h] at hv
    unfold _sigmoids
    rw [if_neg h, if_pos hv]

/-! ### Analytic helper lemmas for the inverse hyperbolic functions -/

lemma tanh_sq_eq (y : ℝ) : Real.tanh y ^ 2 = 1 - 1 / Real.cosh y ^ 2 := by
  have h : Real.cosh y ^ 2 ≠ 0 := pow_ne_zero _ (ne_of_gt (Real.cosh_pos y))
  rw [Real.tanh_eq_sinh_div_cosh, div_pow, Real.sinh_sq]
  field_simp

lemma tanh_sq_lt_one (y : ℝ) : Real.tanh y ^ 2 < 1 := by
  rw [tanh_sq_eq]
  have h : 0 < 1 / Real.cosh y ^ 2 := by positivity
  linarith

lemma arccosh_pos {y : ℝ} (hy : 1 < y) : 0 < arccosh y := by
  unfold arccosh
  apply Real.log_pos
  have hs : 0 ≤ Real.sqrt (y ^ 2 - 1) := Real.sqrt_nonneg _
  linarith

lemma cosh_arccosh {y : ℝ} (hy : 1 < y) : Real.cosh (arccosh y) = y := by
  have h1 : (0:ℝ) ≤ y ^ 2 - 1 := by nlinarith
  have hs : Real.sqrt (y ^ 2 - 1) ^ 2 = y ^ 2 - 1 := Real.sq_sqrt h1
  have hsn : 0 ≤ Real.sqrt (y ^ 2 - 1) := Real.sqrt_nonneg _
  have hu : 0 < y + Real.sqrt (y ^ 2 - 1) := by nlinarith
  rw [arccosh, Real.cosh_eq, Real.exp_log hu, Real.exp_neg, Real.exp_log hu]
  rw [div_eq_iff (by norm_num : (2:ℝ) ≠ 0)]
  field_simp
  nlinarith [hs]

lemma arctanh_pos {t : ℝ} (h0 : 0 < t) (h1 : t < 1) : 0 < arctanh t := by
  unfold arctanh
  have h : 1 < (1 + t) / (1 - t) := by
    rw [lt_div_iff₀ (by linarith)]
    linarith
  have := Real.log_pos h
  linarith

lemma tanh_arctanh {t : ℝ} (h0 : -1 < t) (h1 : t < 1) : Real.tanh (arctanh t) = t := by
  have hr : 0 < (1 + t) / (1 - t) := div_pos (by linarith) (by linarith)
  have harc : arctanh t = Real.log (Real.sqrt ((1 + t) / (1 - t))) := by
    rw [arctanh, Real.log_sqrt (le_of_lt hr)]
  set E := Real.sqrt ((1 + t) / (1 - t)) with hE
  have hEpos : 0 < E := Real.sqrt_pos.mpr hr
  have hE2 : E ^ 2 = (1 + t) / (1 - t) := Real.sq_sqrt (le_of_lt hr)
  have ht1 : (1:ℝ) - t ≠ 0 := by linarith
  have hE0 : E ≠ 0 := ne_of_gt hEpos
  have hq : (E - E⁻¹) / 2 / ((E + E⁻¹) / 2) = (E ^ 2 - 1) / (E ^ 2 + 1) := by
    have h1 : (0:ℝ) < E ^ 2 + 1 := by positivity
    have h2 : E + E⁻¹ ≠ 0 := by positivity
    field_simp
    ring
  rw [harc, Real.tanh_eq_sinh_div_cosh, Real.sinh_eq, Real.cosh_eq,
    Real.exp_log hEpos, Real.exp_neg, Real.exp_log hEpos, hq, hE2]
  rw [div_eq_iff (by positivity : ((1 + t) / (1 - t) + 1) ≠ 0)]
  field_simp
  ring

/-! ### Per-shape bounds for the sigmoid formulas -/

lemma sigmoids_bounds {s : String} {v x : ℝ} (hs : recognized s) (hv : validValueAt s v)
    (hx : 0 ≤ x) :
    ∃ r, _sigmoids x v s = Except.ok r ∧ 0 ≤ r ∧ r ≤ 1 ∧ (0 < x → r < 1) := by
  rw [sigmoids_eq_body x hv]
  rcases hs with h|h|h|h|h|h|h|h <;> subst h
  · rw [validValueAt_gaussian] at hv
    obtain ⟨hv0, hv1⟩ := hv
    rw [sigmoidBody_gaussian]
    have hsc : 0 < Real.sqrt (-2 * Real.log v) := by
      apply Real.sqrt_pos.mpr
      have := Real.log_neg hv0 hv1
      linarith
    refine ⟨_, rfl, le_of_lt (Real.exp_pos _), ?_, ?_⟩
    · rw [Real.exp_le_one_iff]
      nlinarith [sq_nonneg (x * Real.sqrt (-2 * Real.log v))]
    · intro hx0
      rw [Real.exp_lt_one_iff]
      nlinarith [mul_pos hx0 hsc]
  · rw [validValueAt_hyperbolic] at hv
    obtain ⟨hv0, hv1⟩ := hv
    rw [sigmoidBody_hyperbolic]
    have hc : 0 < Real.cosh (x * arccosh (1 / v)) := Real.cosh_pos _
    have hsc : 0 < arccosh (1 / v) := arccosh_pos (by rw [lt_div_iff₀ hv0]; linarith)
    refine ⟨_, rfl, by positivity, ?_, ?_⟩
    · rw [div_le_one hc]
      exact Real.one_le_cosh _
    · intro hx0
      rw [div_lt_one hc]
      exact Real.one_lt_cosh.mpr (ne_of_gt (mul_pos hx0 hsc))
  · rw [validValueAt_long_tail] at hv
    obtain ⟨hv0, hv1⟩ := hv
    rw [sigmoidBody_long_tail]
    have hd : 0 < (x * Real.sqrt (1 / v - 1)) ^ 2 + 1 := by positivity
    have hsc : 0 < Real.sqrt (1 / v - 1) := by
      apply Real.sqrt_pos.mpr
      have : 1 < 1 / v := by rw [lt_div_iff₀ hv0]; linarith
      linarith
    refine ⟨_, rfl, by positivity, ?_, ?_⟩
    · rw [div_le_one hd]
      nlinarith [sq_nonneg (x * Real.sqrt (1 / v - 1))]
    · intro hx0
      rw [div_lt_one hd]
      nlinarith [mul_pos hx0 hsc]
  · rw [validValueAt_reciprocal] at hv
    obtain ⟨hv0, hv1⟩ := hv
    rw [sigmoidBody_reciprocal]
    have hsc : 0 < 1 / v - 1 := by
      have : 1 < 1 / v := by rw [lt_div_iff₀ hv0]; linarith
      linarith
    have habs : |x| = x := abs_of_nonneg hx
    have hd : 0 < |x| * (1 / v - 1) + 1 := by positivity
    refine ⟨_, rfl, by positivity, ?_, ?_⟩
    · rw [div_le_one hd]
      nlinarith [abs_nonneg x]
    · intro hx0
      rw [div_lt_one hd]
      have h2 : 0 < |x| * (1 / v - 1) := by
        apply mul_pos _ hsc
        rwa [habs]
      linarith
  · rw [validValueAt_cosine] at hv
    obtain ⟨hv0, hv1⟩ := hv
    rw [sigmoidBody_cosine]
    by_cases hb : |x * (Real.arccos (2 * v - 1) / Real.pi)| < 1
    · rw [if_pos hb]
      have hcos1 : Real.cos (Real.pi * (x * (Real.arccos (2 * v - 1) / Real.pi))) ≤ 1 :=
        Real.cos_le_one _
      have hcosm : -1 ≤ Real.cos (Real.pi * (x * (Real.arccos (2 * v - 1) / Real.pi))) :=
        Real.neg_one_le_cos _
      refine ⟨_, rfl, by linarith, by linarith, ?_⟩
      intro hx0
      have hsc : 0 < Real.arccos (2 * v - 1) / Real.pi :=
        div_pos (Real.arccos_pos.mpr (by linarith)) Real.pi_pos
      have ht0 : 0 < x * (Real.arccos (2 * v - 1) / Real.pi) := mul_pos hx0 hsc
      have ht1 : x * (Real.arccos (2 * v - 1) / Real.pi) < 1 := lt_of_abs_lt hb
      have hlt : Real.cos (Real.pi * (x * (Real.arccos (2 * v - 1) / Real.pi))) < Real.cos 0 := by
        apply Real.cos_lt_cos_of_nonneg_of_le_pi le_rfl
        · nlinarith [Real.pi_pos]
        · positivity
      rw [Real.cos_zero] at hlt
      linarith
    · rw [if_neg hb]
      exact ⟨_, rfl, le_rfl, zero_le_one, fun _ => zero_lt_one⟩
  · rw [validValueAt_linear] at hv
    obtain ⟨hv0, hv1⟩ := hv
    rw [sigmoidBody_linear]
    have hsc : 0 < 1 - v := by linarith
    have ht0 : 0 ≤ x * (1 - v) := mul_nonneg hx (by linarith)
    by_cases hb : |x * (1 - v)| < 1
    · rw [if_pos hb]
      have ht1 : x * (1 - v) < 1 := lt_of_abs_lt hb
      refine ⟨_, rfl, by linarith, by linarith, ?_⟩
      intro hx0
      have := mul_pos hx0 hsc
      linarith
    · rw [if_neg hb]
      exact ⟨_, rfl, le_rfl, zero_le_one, fun _ => zero_lt_one⟩
  · rw [validValueAt_quadratic] at hv
    obtain ⟨hv0, hv1⟩ := hv
    rw [sigmoidBody_quadratic]
    have ht0 : 0 ≤ x * Real.sqrt (1 - v) := mul_nonneg hx (Real.sqrt_nonneg _)
    by_cases hb : |x * Real.sqrt (1 - v)| < 1
    · rw [if_pos hb]
      have ht1 : x * Real.sqrt (1 - v) < 1 := lt_of_abs_lt hb
      refine ⟨_, rfl, by nlinarith, by nlinarith [sq_nonneg (x * Real.sqrt (1 - v))], ?_⟩
      intro hx0
      have hsq : 0 < Real.sqrt (1 - v) := Real.sqrt_pos.mpr (by linarith)
      nlinarith [mul_pos hx0 hsq]
    · rw [if_neg hb]
      exact ⟨_, rfl, le_rfl, zero_le_one, fun _ => zero_lt_one⟩
  · rw [validValueAt_tanh_squared] at hv
    obtain ⟨hv0, hv1⟩ := hv
    rw [sigmoidBody_tanh_squared]
    refine ⟨_, rfl, ?_, ?_, ?_⟩
    · have := tanh_sq_lt_one (x * arctanh (Real.sqrt (1 - v)))
      linarith
    · have := sq_nonneg (Real.tanh (x * arctanh (Real.sqrt (1 - v))))
      linarith
    · intro hx0
      have hst : 0 < Real.sqrt (1 - v) := Real.sqrt_pos.mpr (by linarith)
      have hst1 : Real.sqrt (1 - v) < 1 := (Real.sqrt_lt' one_pos).mpr (by nlinarith)
      have hsc : 0 < arctanh (Real.sqrt (1 - v)) := arctanh_pos hst hst1
      have htanh : 0 < Real.tanh (x * arctanh (Real.sqrt (1 - v))) := by
        rw [Real.tanh_eq_sinh_div_cosh]
        exact div_pos (Real.sinh_pos_iff.mpr (mul_pos hx0 hsc)) (Real.cosh_pos _)
      nlinarith

/-! ### The sigmoid formulas at normalized distance 1 -/

lemma sigmoids_at_one {s : String} {v : ℝ} (hs : recognized s) (hv : validValueAt s v) :
    _sigmoids 1 v s = Except.ok v := by
  rw [sigmoids_eq_body 1 hv]
  rcases hs with h|h|h|h|h|h|h|h <;> subst h
  · rw [validValueAt_gaussian] at hv
    obtain ⟨hv0, hv1⟩ := hv
    rw [sigmoidBody_gaussian]
    congr 1
    have hlog : Real.log v ≤ 0 := Real.log_nonpos (le_of_lt hv0) (le_of_lt hv1)
    rw [one_mul, Real.sq_sqrt (by linarith : (0:ℝ) ≤ -2 * Real.log v)]
    rw [show -0.5 * (-2 * Real.log v) = Real.log v by ring]
    exact Real.exp_log hv0
  · rw [validValueAt_hyperbolic] at hv
    obtain ⟨hv0, hv1⟩ := hv
    rw [sigmoidBody_hyperbolic]
    congr 1
    have h1 : 1 < 1 / v := by rw [lt_div_iff₀ hv0]; linarith
    rw [one_mul, cosh_arccosh h1, one_div_one_div]
  · rw [validValueAt_long_tail] at hv
    obtain ⟨hv0, hv1⟩ := hv
    rw [sigmoidBody_long_tail]
    congr 1
    have h1 : (0:ℝ) ≤ 1 / v - 1 := by
      have : 1 < 1 / v := by rw [lt_div_iff₀ hv0]; linarith
      linarith
    rw [one_mul, Real.sq_sqrt h1, sub_add_cancel, one_div_one_div]
  · rw [validValueAt_reciprocal] at hv
    obtain ⟨hv0, hv1⟩ := hv
    rw [sigmoidBody_reciprocal]
    congr 1
    rw [abs_one, one_mul, sub_add_cancel, one_div_one_div]
  · rw [validValueAt_cosine] at hv
    obtain ⟨hv0, hv1⟩ := hv
    rw [sigmoidBody_cosine]
    rcases eq_or_lt_of_le hv0 with hv0' | hv0'
    · rw [← hv0']
      have harc : Real.arccos (2 * (0:ℝ) - 1) = Real.pi := by
        norm_num [Real.arccos_neg_one]
      rw [harc, div_self Real.pi_ne_zero, one_mul, abs_one]
      rw [if_neg (by norm_num)]
    · have hap : Real.arccos (2 * v - 1) < Real.pi := by
        rcases lt_or_eq_of_le (Real.arccos_le_pi (2 * v - 1)) with h | h
        · exact h
        · exfalso
          rw [Real.arccos_eq_pi] at h
          linarith
      have hb : |1 * (Real.arccos (2 * v - 1) / Real.pi)| < 1 := by
        rw [one_mul, abs_div, abs_of_nonneg (Real.arccos_nonneg _),
          abs_of_pos Real.pi_pos, div_lt_one Real.pi_pos]
        exact hap
      rw [if_pos hb, one_mul, mul_comm Real.pi, div_mul_cancel₀ _ Real.pi_ne_zero]
      congr 1
      rw [Real.cos_arccos (by linarith) (by linarith)]
      ring
  · rw [validValueAt_linear] at hv
    obtain ⟨hv0, hv1⟩ := hv
    rw [sigmoidBody_linear]
    rcases eq_or_lt_of_le hv0 with hv0' | hv0'
    · rw [← hv0']
      norm_num
    · rw [one_mul, if_pos (by rw [abs_of_pos (by linarith : (0:ℝ) < 1 - v)]; linarith)]
      congr 1
      ring
  · rw [validValueAt_quadratic] at hv
    obtain ⟨hv0, hv1⟩ := hv
    rw [sigmoidBody_quadratic]
    rcases eq_or_lt_of_le hv0 with hv0' | hv0'
    · rw [← hv0']
      norm_num
    · have hs1 : Real.sqrt (1 - v) < 1 := (Real.sqrt_lt' one_pos).mpr (by nlinarith)
      rw [one_mul, if_pos (by rw [abs_of_nonneg (Real.sqrt_nonneg _)]; exact hs1)]
      congr 1
      rw [Real.sq_sqrt (by linarith : (0:ℝ) ≤ 1 - v)]
      ring
  · rw [validValueAt_tanh_squared] at hv
    obtain ⟨hv0, hv1⟩ := hv
    rw [sigmoidBody_tanh_squared]
    congr 1
    have h0 : 0 ≤ Real.sqrt (1 - v) := Real.sqrt_nonneg _
    have h1 : Real.sqrt (1 - v) < 1 := (Real.sqrt_lt' one_pos).mpr (by nlinarith)
    rw [one_mul, tanh_arctanh (by linarith) h1, Real.sq_sqrt (by linarith : (0:ℝ) ≤ 1 - v)]
    ring

/-! ### Antitonicity of the sigmoid formulas on positive distances -/

lemma sigmoids_anti {s : String} {v x₁ x₂ r₁ r₂ : ℝ} (hs : recognized s) (hv : validValueAt s v)
    (hx1 : 0 < x₁) (h12 : x₁ ≤ x₂)
    (h1 : _sigmoids x₁ v s = Except.ok r₁) (h2 : _sigmoids x₂ v s = Except.ok r₂) :
    r₂ ≤ r₁ := by
  have hx2 : 0 < x₂ := lt_of_lt_of_le hx1 h12
  rw [sigmoids_eq_body _ hv] at h1 h2
  rcases hs with h|h|h|h|h|h|h|h <;> subst h
  · rw [sigmoidBody_gaussian] at h1 h2
    obtain rfl := Except.ok.inj h1
    obtain rfl := Except.ok.inj h2
    have hS : 0 ≤ Real.sqrt (-2 * Real.log v) := Real.sqrt_nonneg _
    have hm : x₁ * Real.sqrt (-2 * Real.log v) ≤ x₂ * Real.sqrt (-2 * Real.log v) :=
      mul_le_mul_of_nonneg_right h12 hS
    have hm0 : 0 ≤ x₁ * Real.sqrt (-2 * Real.log v) := mul_nonneg (le_of_lt hx1) hS
    rw [Real.exp_le_exp]
    nlinarith
  · rw [sigmoidBody_hyperbolic] at h1 h2
    obtain rfl := Except.ok.inj h1
    obtain rfl := Except.ok.inj h2
    have hS : 0 ≤ arccosh (1 / v) := by
      rw [validValueAt_hyperbolic] at hv
      exact le_of_lt (arccosh_pos (by rw [lt_div_iff₀ hv.1]; linarith [hv.2]))
    apply one_div_le_one_div_of_le (Real.cosh_pos _)
    rw [Real.cosh_le_cosh, abs_of_nonneg (mul_nonneg (le_of_lt hx1) hS),
      abs_of_nonneg (mul_nonneg (le_of_lt hx2) hS)]
    exact mul_le_mul_of_nonneg_right h12 hS
  · rw [sigmoidBody_long_tail] at h1 h2
    obtain rfl := Except.ok.inj h1
    obtain rfl := Except.ok.inj h2
    have hS : 0 ≤ Real.sqrt (1 / v - 1) := Real.sqrt_nonneg _
    apply one_div_le_one_div_of_le (by positivity)
    have hm : x₁ * Real.sqrt (1 / v - 1) ≤ x₂ * Real.sqrt (1 / v - 1) :=
      mul_le_mul_of_nonneg_right h12 hS
    have hm0 : 0 ≤ x₁ * Real.sqrt (1 / v - 1) := mul_nonneg (le_of_lt hx1) hS
    nlinarith
  · rw [sigmoidBody_reciprocal] at h1 h2
    obtain rfl := Except.ok.inj h1
    obtain rfl := Except.ok.inj h2
    have hS : 0 ≤ 1 / v - 1 := by
      rw [validValueAt_reciprocal] at hv
      have : 1 < 1 / v := by rw [lt_div_iff₀ hv.1]; linarith [hv.2]
      linarith
    apply one_div_le_one_div_of_le (by positivity)
    have hm : |x₁| ≤ |x₂| := by
      rw [abs_of_pos hx1, abs_of_pos hx2]
      exact h12
    nlinarith [abs_nonneg x₁]
  · rw [sigmoidBody_cosine] at h1 h2
    obtain rfl := Except.ok.inj h1
    obtain rfl := Except.ok.inj h2
    rw [validValueAt_cosine] at hv
    have hS : 0 ≤ Real.arccos (2 * v - 1) / Real.pi :=
      div_nonneg (Real.arccos_nonneg _) (le_of_lt Real.pi_pos)
    have ht1 : 0 ≤ x₁ * (Real.arccos (2 * v - 1) / Real.pi) := mul_nonneg (le_of_lt hx1) hS
    have ht2 : 0 ≤ x₂ * (Real.arccos (2 * v - 1) / Real.pi) := mul_nonneg (le_of_lt hx2) hS
    have htm : x₁ * (Real.arccos (2 * v - 1) / Real.pi) ≤ x₂ * (Real.arccos (2 * v - 1) / Real.pi) :=
      mul_le_mul_of_nonneg_right h12 hS
    by_cases hb2 : |x₂ * (Real.arccos (2 * v - 1) / Real.pi)| < 1
    · have hb1 : |x₁ * (Real.arccos (2 * v - 1) / Real.pi)| < 1 := by
        rw [abs_of_nonneg ht1]
        rw [abs_of_nonneg ht2] at hb2
        linarith
      rw [if_pos hb1, if_pos hb2]
      have hcos : Real.cos (Real.pi * (x₂ * (Real.arccos (2 * v - 1) / Real.pi)))
          ≤ Real.cos (Real.pi * (x₁ * (Real.arccos (2 * v - 1) / Real.pi))) := by
        apply Real.cos_le_cos_of_nonneg_of_le_pi
        · positivity
        · rw [abs_of_nonneg ht2] at hb2
          nlinarith [Real.pi_pos]
        · nlinarith [Real.pi_pos]
      linarith
    · rw [if_neg hb2]
      by_cases hb1 : |x₁ * (Real.arccos (2 * v - 1) / Real.pi)| < 1
      · rw [if_pos hb1]
        have := Real.neg_one_le_cos (Real.pi * (x₁ * (Real.arccos (2 * v - 1) / Real.pi)))
        linarith
      · rw [if_neg hb1]
  · rw [sigmoidBody_linear] at h1 h2
    obtain rfl := Except.ok.inj h1
    obtain rfl := Except.ok.inj h2
    rw [validValueAt_linear] at hv
    have hS : 0 ≤ 1 - v := by linarith [hv.2]
    have ht1 : 0 ≤ x₁ * (1 - v) := mul_nonneg (le_of_lt hx1) hS
    have htm : x₁ * (1 - v) ≤ x₂ * (1 - v) := mul_le_mul_of_nonneg_right h12 hS
    by_cases hb2 : |x₂ * (1 - v)| < 1
    · have hb1 : |x₁ * (1 - v)| < 1 := by
        rw [abs_of_nonneg ht1]
        rw [abs_of_nonneg (by linarith : (0:ℝ) ≤ x₂ * (1 - v))] at hb2
        linarith
      rw [if_pos hb1, if_pos hb2]
      linarith
    · rw [if_neg hb2]
      by_cases hb1 : |x₁ * (1 - v)| < 1
      · rw [if_pos hb1]
        have := lt_of_abs_lt hb1
        linarith
      · rw [if_neg hb1]
  · rw [sigmoidBody_quadratic] at h1 h2
    obtain rfl := Except.ok.inj h1
    obtain rfl := Except.ok.inj h2
    have hS : 0 ≤ Real.sqrt (1 - v) := Real.sqrt_nonneg _
    have ht1 : 0 ≤ x₁ * Real.sqrt (1 - v) := mul_nonneg (le_of_lt hx1) hS
    have htm : x₁ * Real.sqrt (1 - v) ≤ x₂ * Real.sqrt (1 - v) :=
      mul_le_mul_of_nonneg_right h12 hS
    by_cases hb2 : |x₂ * Real.sqrt (1 - v)| < 1
    · have hb1 : |x₁ * Real.sqrt (1 - v)| < 1 := by
        rw [abs_of_nonneg ht1]
        rw [abs_of_nonneg (by linarith : (0:ℝ) ≤ x₂ * Real.sqrt (1 - v))] at hb2
        linarith
      rw [if_pos hb1, if_pos hb2]
      nlinarith
    · rw [if_neg hb2]
      by_cases hb1 : |x₁ * Real.sqrt (1 - v)| < 1
      · rw [if_pos hb1]
        have h1a := lt_of_abs_lt hb1
        nlinarith
      · rw [if_neg hb1]
  · rw [sigmoidBody_tanh_squared] at h1 h2
    obtain rfl := Except.ok.inj h1
    obtain rfl := Except.ok.inj h2
    have hS : 0 ≤ arctanh (Real.sqrt (1 - v)) := by
      rw [validValueAt_tanh_squared] at hv
      have hst : 0 < Real.sqrt (1 - v) := Real.sqrt_pos.mpr (by linarith [hv.2])
      have hst1 : Real.sqrt (1 - v) < 1 := (Real.sqrt_lt' one_pos).mpr (by nlinarith [hv.1])
      exact le_of_lt (arctanh_pos hst hst1)
    have key : 1 / Real.cosh (x₂ * arctanh (Real.sqrt (1 - v))) ^ 2
        ≤ 1 / Real.cosh (x₁ * arctanh (Real.sqrt (1 - v))) ^ 2 := by
      apply one_div_le_one_div_of_le (by positivity)
      apply pow_le_pow_left₀ (le_of_lt (Real.cosh_pos _))
      rw [Real.cosh_le_cosh, abs_of_nonneg (mul_nonneg (le_of_lt hx1) hS),
        abs_of_nonneg (mul_nonneg (le_of_lt hx2) hS)]
      exact mul_le_mul_of_nonneg_right h12 hS
    rw [tanh_sq_eq, tanh_sq_eq]
    linarith

/-! ### Glue lemmas for `tolerance` -/

lemma except_map_ok {α β : Type} (f : α → β) (a : α) :
    Except.map f (Except.ok a : Except Err α) = Except.ok (f a) := rfl

lemma except_map_eq_ok {α β : Type} {f : α → β} {e : Except Err α} {b : β}
    (h : Except.map f e = Except.ok b) : ∃ a, e = Except.ok a ∧ b = f a := by
  cases e with
  | ok a => exact ⟨a, rfl, (Except.ok.inj h).symm⟩
  | error err => exact absurd h (by simp [Except.map])

lemma tolerance_pos_margin_eq {lower upper margin : ℝ} (hlu : lower ≤ upper) (hm : 0 < margin)
    (x : ℝ) (s : String) (v : ℝ) :
    tolerance x lower upper margin s v
      = Except.map (fun r => if lower ≤ x ∧ x ≤ upper then 1 else r)
          (_sigmoids (excess x lower upper / margin) v s) := by
  unfold tolerance
  rw [if_neg (not_lt.mpr hlu), if_neg (not_lt.mpr (le_of_lt hm)), if_neg hm.ne']

lemma tolerance_zero_margin_eq {lower upper : ℝ} (hlu : lower ≤ upper) (x : ℝ) (s : String)
    (v : ℝ) :
    tolerance x lower upper 0 s v = Except.ok (if lower ≤ x ∧ x ≤ upper then 1 else 0) := by
  unfold tolerance
  rw [if_neg (not_lt.mpr hlu), if_neg (lt_irrefl 0), if_pos rfl]

lemma excess_pos {x lower upper : ℝ} (hout : ¬(lower ≤ x ∧ x ≤ upper)) :
    0 < excess x lower upper := by
  unfold excess
  push_neg at hout
  by_cases hx : x < lower
  · rw [if_pos hx]
    linarith
  · rw [if_neg hx]
    push_neg at hx
    have := hout hx
    linarith

lemma excess_div_pos {x lower upper margin : ℝ} (hm : 0 < margin)
    (hout : ¬(lower ≤ x ∧ x ≤ upper)) : 0 < excess x lower upper / margin :=
  div_pos (excess_pos hout) hm

lemma sigmoids_ok {s : String} {v : ℝ} (hs : recognized s) (hv : validValueAt s v) (x : ℝ) :
    ∃ r, _sigmoids x v s = Except.ok r := by
  rw [sigmoids_eq_body x hv]
  rcases hs with h|h|h|h|h|h|h|h <;> subst h
  · exact ⟨_, sigmoidBody_gaussian x v⟩
  · exact ⟨_, sigmoidBody_hyperbolic x v⟩
  · exact ⟨_, sigmoidBody_long_tail x v⟩
  · exact ⟨_, sigmoidBody_reciprocal x v⟩
  · exact ⟨_, sigmoidBody_cosine x v⟩
  · exact ⟨_, sigmoidBody_linear x v⟩
  · exact ⟨_, sigmoidBody_quadratic x v⟩
  · exact ⟨_, sigmoidBody_tanh_squared x v⟩

/-! ### Claim theorems -/

/-- C2: for every bounds pair with `lower ≤ upper`, every `margin ≥ 0`, every recognized
shape kind and every `value_at_margin` valid for that kind, `tolerance` succeeds and its
result equals `1` exactly when `lower ≤ x ≤ upper` (bounds inclusive), independent of the
chosen shape and margin. -/
theorem tolerance_eq_one_iff_in_bounds {lower upper margin v : ℝ} {s : String}
    (hlu : lower ≤ upper) (hm : 0 ≤ margin) (hs : recognized s) (hv : validValueAt s v)
    (x : ℝ) :
    ∃ r, tolerance x lower upper margin s v = Except.ok r ∧
      (r = 1 ↔ (lower ≤ x ∧ x ≤ upper)) := by
  rcases eq_or_lt_of_le hm with hm0 | hm0
  · rw [← hm0, tolerance_zero_margin_eq hlu]
    by_cases hin : lower ≤ x ∧ x ≤ upper
    · rw [if_pos hin]
      exact ⟨1, rfl, by simp [hin]⟩
    · rw [if_neg hin]
      refine ⟨0, rfl, ?_⟩
      constructor
      · intro h
        norm_num at h
      · intro h
        exact absurd h hin
  · rw [tolerance_pos_margin_eq hlu hm0]
    by_cases hin : lower ≤ x ∧ x ≤ upper
    · obtain ⟨r₀, h₀⟩ := sigmoids_ok hs hv (excess x lower upper / margin)
      rw [h₀, except_map_ok, if_pos hin]
      exact ⟨1, rfl, by simp [hin]⟩
    · have hd := excess_div_pos hm0 hin
      obtain ⟨r, h, _, _, hstrict⟩ := sigmoids_bounds hs hv (le_of_lt hd)
      rw [h, except_map_ok, if_neg hin]
      refine ⟨r, rfl, ?_⟩
      constructor
      · intro h1
        exact absurd h1 (ne_of_lt (hstrict hd))
      · intro h1
        exact absurd h1 hin

/-- Witness for C2 at `x = 0.5`, bounds `(0, 1)`, margin `1`, kind `gaussian`,
`value_at_margin = 0.1`. -/
theorem tolerance_eq_one_iff_in_bounds_witness :
    ∃ r, tolerance 0.5 0 1 1 "gaussian" 0.1 = Except.ok r ∧
      (r = 1 ↔ ((0:ℝ) ≤ 0.5 ∧ (0.5:ℝ) ≤ 1)) :=
  tolerance_eq_one_iff_in_bounds (by norm_num) (by norm_num) (Or.inl rfl)
    ((validValueAt_gaussian 0.1).mpr (by norm_num)) 0.5

/-- C3: for every valid input (`lower ≤ upper`, `margin ≥ 0`, recognized kind,
`value_at_margin` in the kind's allowed range) and every `x`, `tolerance` succeeds and
its value lies in the closed interval `[0, 1]`. -/
theorem tolerance_range {lower upper margin v : ℝ} {s : String}
    (hlu : lower ≤ upper) (hm : 0 ≤ margin) (hs : recognized s) (hv : validValueAt s v)
    (x : ℝ) :
    ∃ r, tolerance x lower upper margin s v = Except.ok r ∧ 0 ≤ r ∧ r ≤ 1 := by
  rcases eq_or_lt_of_le hm with hm0 | hm0
  · rw [← hm0, tolerance_zero_margin_eq hlu]
    by_cases hin : lower ≤ x ∧ x ≤ upper
    · rw [if_pos hin]
      exact ⟨1, rfl, by norm_num, by norm_num⟩
    · rw [if_neg hin]
      exact ⟨0, rfl, by norm_num, by norm_num⟩
  · rw [tolerance_pos_margin_eq hlu hm0]
    by_cases hin : lower ≤ x ∧ x ≤ upper
    · obtain ⟨r₀, h₀⟩ := sigmoids_ok hs hv (excess x lower upper / margin)
      rw [h₀, except_map_ok, if_pos hin]
      exact ⟨1, rfl, by norm_num, by norm_num⟩
    · have hd := excess_div_pos hm0 hin
      obtain ⟨r, h, h0, h1, _⟩ := sigmoids_bounds hs hv (le_of_lt hd)
      rw [h, except_map_ok, if_neg hin]
      exact ⟨r, rfl, h0, h1⟩

/-- Witness for C3 at `x = 7`, bounds `(0, 1)`, margin `2`, kind `long_tail`,
`value_at_margin = 0.5`. -/
theorem tolerance_range_witness :
    ∃ r, tolerance 7 0 1 2 "long_tail" 0.5 = Except.ok r ∧ 0 ≤ r ∧ r ≤ 1 :=
  tolerance_range (by norm_num) (by norm_num) (Or.inr (Or.inr (Or.inl rfl)))
    ((validValueAt_long_tail 0.5).mpr (by norm_num)) 7

/-- C4: for every recognized shape kind, every `value_at_margin` valid for it, every
`margin > 0` and every bounds pair with `lower ≤ upper`, `tolerance` evaluated exactly
`margin` past a bound (`x = upper + margin` or `x = lower - margin`) returns exactly
`value_at_margin`. -/
theorem tolerance_at_margin {lower upper margin v : ℝ} {s : String}
    (hlu : lower ≤ upper) (hm : 0 < margin) (hs : recognized s) (hv : validValueAt s v) :
    tolerance (upper + margin) lower upper margin s v = Except.ok v ∧
    tolerance (lower - margin) lower upper margin s v = Except.ok v := by
  constructor
  · rw [tolerance_pos_margin_eq hlu hm]
    have hex : excess (upper + margin) lower upper = margin := by
      unfold excess
      rw [if_neg (not_lt.mpr (by linarith))]
      ring
    rw [hex, div_self hm.ne', sigmoids_at_one hs hv, except_map_ok,
      if_neg (by push_neg; intro _; linarith)]
  · rw [tolerance_pos_margin_eq hlu hm]
    have hex : excess (lower - margin) lower upper = margin := by
      unfold excess
      rw [if_pos (by linarith)]
      ring
    rw [hex, div_self hm.ne', sigmoids_at_one hs hv, except_map_ok,
      if_neg (by intro h; linarith [h.1])]

/-- Witness for C4: the spec scenario `tolerance(2.0, bounds=(0,1), margin=1,
kind=linear, value_at_margin=0.0)` returns exactly `0`. -/
theorem tolerance_at_margin_witness :
    tolerance 2 0 1 1 "linear" 0 = Except.ok 0 := by
  have h := (@tolerance_at_margin 0 1 1 0 ("linear") (by norm_num) (by norm_num)
    (Or.inr (Or.inr (Or.inr (Or.inr (Or.inr (Or.inl rfl))))))
    ((validValueAt_linear 0).mpr (by norm_num))).1
  norm_num at h
  exact h

/-- C5: for every recognized shape kind, every valid `value_at_margin`, every
`margin ≥ 0` and every bounds pair with `lower ≤ upper`, if `x₁` and `x₂` are both out
of bounds on the same side and the excess distance of `x₂` is at least that of `x₁`,
then `tolerance x₂ ≤ tolerance x₁`: the score is non-increasing in excess distance. -/
theorem tolerance_antitone_in_excess {lower upper margin v x₁ x₂ : ℝ} {s : String}
    (hlu : lower ≤ upper) (hm : 0 ≤ margin) (hs : recognized s) (hv : validValueAt s v)
    (hside : (x₁ < lower ∧ x₂ < lower) ∨ (upper < x₁ ∧ upper < x₂))
    (hexc : excess x₁ lower upper ≤ excess x₂ lower upper) :
    ∃ r₁ r₂, tolerance x₁ lower upper margin s v = Except.ok r₁ ∧
      tolerance x₂ lower upper margin s v = Except.ok r₂ ∧ r₂ ≤ r₁ := by
  have hout1 : ¬(lower ≤ x₁ ∧ x₁ ≤ upper) := by
    rcases hside with ⟨h1, _⟩ | ⟨h1, _⟩
    · intro h
      linarith [h.1]
    · intro h
      linarith [h.2]
  have hout2 : ¬(lower ≤ x₂ ∧ x₂ ≤ upper) := by
    rcases hside with ⟨_, h2⟩ | ⟨_, h2⟩
    · intro h
      linarith [h.1]
    · intro h
      linarith [h.2]
  rcases eq_or_lt_of_le hm with hm0 | hm0
  · rw [← hm0, tolerance_zero_margin_eq hlu, tolerance_zero_margin_eq hlu,
      if_neg hout1, if_neg hout2]
    exact ⟨0, 0, rfl, rfl, le_rfl⟩
  · rw [tolerance_pos_margin_eq hlu hm0, tolerance_pos_margin_eq hlu hm0]
    have hd1 : 0 < excess x₁ lower upper / margin := excess_div_pos hm0 hout1
    have hd12 : excess x₁ lower upper / margin ≤ excess x₂ lower upper / margin :=
      (div_le_div_iff_of_pos_right hm0).mpr hexc
    obtain ⟨r₁, h₁⟩ := sigmoids_ok hs hv (excess x₁ lower upper / margin)
    obtain ⟨r₂, h₂⟩ := sigmoids_ok hs hv (excess x₂ lower upper / margin)
    rw [h₁, h₂, except_map_ok, except_map_ok, if_neg hout1, if_neg hout2]
    exact ⟨r₁, r₂, rfl, rfl, sigmoids_anti hs hv hd1 hd12 h₁ h₂⟩

/-- Witness for C5 at bounds `(0, 1)`, margin `1`, kind `gaussian`,
`value_at_margin = 0.1`, `x₁ = 2`, `x₂ = 3` (both above the upper bound). -/
theorem tolerance_antitone_in_excess_witness :
    ∃ r₁ r₂, tolerance 2 0 1 1 "gaussian" 0.1 = Except.ok r₁ ∧
      tolerance 3 0 1 1 "gaussian" 0.1 = Except.ok r₂ ∧ r₂ ≤ r₁ :=
  tolerance_antitone_in_excess (by norm_num) (by norm_num) (Or.inl rfl)
    ((validValueAt_gaussian 0.1).mpr (by norm_num))
    (Or.inr ⟨by norm_num, by norm_num⟩)
    (by unfold excess; norm_num)

/-- C7: when `margin = 0` and `lower ≤ upper`, `tolerance` returns exactly `1` in
bounds and exactly `0` out of bounds, for every kind string (recognized or not) and
every `value_at_margin` whatsoever: no shape or parameter validation happens in this
branch and no error is raised. -/
theorem tolerance_margin_zero_indicator {lower upper : ℝ} (hlu : lower ≤ upper)
    (x v : ℝ) (s : String) :
    tolerance x lower upper 0 s v = Except.ok (if lower ≤ x ∧ x ≤ upper then 1 else 0) :=
  tolerance_zero_margin_eq hlu x s v

/-- Witness for C7 with the unrecognized kind `bogus` and the out-of-range
`value_at_margin = 5`: in bounds the result is `1`. -/
theorem tolerance_margin_zero_indicator_witness :
    tolerance 0 0 0 0 "bogus" 5 = Except.ok 1 := by
  have h := tolerance_margin_zero_indicator (le_refl (0:ℝ)) 0 5 "bogus"
  rw [if_pos ⟨le_rfl, le_rfl⟩] at h
  exact h

/-- C6: the error taxonomy of `tolerance`: invalid bounds when `lower > upper`;
invalid margin when `margin < 0` (bounds valid); with `margin > 0` and an in-range
`value_at_margin`, unknown-shape for a kind outside the 8 recognized identifiers;
with `margin > 0`, invalid-parameter for `gaussian` at `value_at_margin = 0` (strict
`0 < v < 1` required); yet `linear` succeeds at `value_at_margin = 0`.  No failure
carries a partial result (an `Except.error` holds no value). -/
theorem tolerance_error_cases :
    (∀ (x lower upper margin v : ℝ) (s : String), upper < lower →
        tolerance x lower upper margin s v = Except.error Err.invalidBounds) ∧
    (∀ (x lower upper margin v : ℝ) (s : String), lower ≤ upper → margin < 0 →
        tolerance x lower upper margin s v = Except.error Err.invalidMargin) ∧
    (∀ (x lower upper margin v : ℝ) (s : String), lower ≤ upper → 0 < margin →
        ¬ recognized s → 0 < v → v < 1 →
        tolerance x lower upper margin s v = Except.error Err.unknownShape) ∧
    (∀ (x lower upper margin : ℝ), lower ≤ upper → 0 < margin →
        tolerance x lower upper margin ("gaussian") 0 = Except.error Err.invalidParam) ∧
    (∀ (x lower upper margin : ℝ), lower ≤ upper → 0 < margin →
        ∃ r, tolerance x lower upper margin ("linear") 0 = Except.ok r) := by
  refine ⟨?_, ?_, ?_, ?_, ?_⟩
  · intro x lower upper margin v s h
    unfold tolerance
    rw [if_pos h]
  · intro x lower upper margin v s hlu hm
    unfold tolerance
    rw [if_neg (not_lt.mpr hlu), if_pos hm]
  · intro x lower upper margin v s hlu hm hns hv0 hv1
    rw [tolerance_pos_margin_eq hlu hm]
    unfold recognized at hns
    push_neg at hns
    obtain ⟨hg, hh, hlt, hr, hc, hl, hq, ht⟩ := hns
    unfold _sigmoids
    rw [if_neg (by push_neg; exact ⟨hc, hl, hq⟩), if_pos ⟨hv0, hv1⟩]
    unfold sigmoidBody
    rw [if_neg hg, if_neg hh, if_neg hlt, if_neg hr, if_neg hc, if_neg hl, if_neg hq,
      if_neg ht]
    rfl
  · intro x lower upper margin hlu hm
    rw [tolerance_pos_margin_eq hlu hm]
    unfold _sigmoids
    rw [if_neg (by simp), if_neg (by norm_num)]
    rfl
  · intro x lower upper margin hlu hm
    rw [tolerance_pos_margin_eq hlu hm,
      sigmoids_eq_body _ ((validValueAt_linear 0).mpr (by norm_num)), sigmoidBody_linear]
    exact ⟨_, rfl⟩

/-- Witness for C6: the five spec scenarios at concrete inputs. -/
theorem tolerance_error_cases_witness :
    tolerance 0 1 0 0 "gaussian" 0.1 = Except.error Err.invalidBounds ∧
    tolerance 0 0 0 (-1) "gaussian" 0.1 = Except.error Err.invalidMargin ∧
    tolerance 0 0 0 1 "bogus" 0.1 = Except.error Err.unknownShape ∧
    tolerance 0 0 0 1 "gaussian" 0 = Except.error Err.invalidParam ∧
    ∃ r, tolerance 0 0 0 1 "linear" 0 = Except.ok r :=
  ⟨tolerance_error_cases.1 0 1 0 0 0.1 "gaussian" (by norm_num),
   tolerance_error_cases.2.1 0 0 0 (-1) 0.1 "gaussian" le_rfl (by norm_num),
   tolerance_error_cases.2.2.1 0 0 0 1 0.1 "bogus" le_rfl one_pos
     (by unfold recognized; simp) (by norm_num) (by norm_num),
   tolerance_error_cases.2.2.2.1 0 0 0 1 le_rfl one_pos,
   tolerance_error_cases.2.2.2.2 0 0 0 1 le_rfl one_pos⟩

/-- C10: validation order at the public interface, for both backends: invalid bounds
is reported first (whatever the margin, kind and value), then invalid margin (whatever
the kind and value); shape/parameter errors can only arise after both checks pass. -/
theorem tolerance_validation_order :
    (∀ (x lower upper margin v : ℝ) (s : String), upper < lower →
        tolerance x lower upper margin s v = Except.error Err.invalidBounds ∧
        tolerance_tensor_elem x lower upper margin s v = Except.error Err.invalidBounds) ∧
    (∀ (x lower upper margin v : ℝ) (s : String), lower ≤ upper → margin < 0 →
        tolerance x lower upper margin s v = Except.error Err.invalidMargin ∧
        tolerance_tensor_elem x lower upper margin s v = Except.error Err.invalidMargin) := by
  constructor
  · intro x lower upper margin v s h
    refine ⟨?_, ?_⟩
    · unfold tolerance
      rw [if_pos h]
    · unfold tolerance_tensor_elem
      rw [if_pos h]
  · intro x lower upper margin v s hlu hm
    refine ⟨?_, ?_⟩
    · unfold tolerance
      rw [if_neg (not_lt.mpr hlu), if_pos hm]
    · unfold tolerance_tensor_elem
      rw [if_neg (not_lt.mpr hlu), if_pos hm]

/-- Witness for C10: with bounds `(1, 0)` invalid and margin `-1` negative at once,
both backends report the invalid-bounds error. -/
theorem tolerance_validation_order_witness :
    tolerance 0 1 0 (-1) "gaussian" 0.1 = Except.error Err.invalidBounds ∧
    tolerance_tensor_elem 0 1 0 (-1) "gaussian" 0.1 = Except.error Err.invalidBounds :=
  tolerance_validation_order.1 0 1 0 (-1) 0.1 "gaussian" (by norm_num)

/-! ### The tensor backend against the array backend -/

lemma sigmoidBodyTensor_eq_map (x v : ℝ) {s : String} (hs : s ≠ "cosine") :
    sigmoidBodyTensor x v s = Except.map TensorResult.tensor (sigmoidBody x v s) := by
  unfold sigmoidBodyTensor sigmoidBody
  split_ifs
  any_goals rfl

lemma sigmoids_tensor_eq_map (x v : ℝ) {s : String} (hs : s ≠ "cosine") :
    _sigmoids_tensor x v s = Except.map TensorResult.tensor (_sigmoids x v s) := by
  unfold _sigmoids_tensor _sigmoids
  split_ifs
  any_goals rfl
  all_goals exact sigmoidBodyTensor_eq_map x v hs

lemma sigmoids_tensor_cosine (x v : ℝ) (hv : 0 ≤ v ∧ v < 1) :
    _sigmoids_tensor x v ("cosine") = Except.ok (TensorResult.ndarray
      (if |x * (Real.arccos (2 * v - 1) / Real.pi)| < 1
       then (1 + Real.cos (Real.pi * (x * (Real.arccos (2 * v - 1) / Real.pi)))) / 2
       else 0)) := by
  unfold _sigmoids_tensor
  rw [if_pos (Or.inl rfl), if_pos hv]
  rfl

lemma tolerance_tensor_elem_eq_tolerance (x lower upper margin : ℝ) {s : String}
    (hs : s ≠ "cosine") (v : ℝ) :
    tolerance_tensor_elem x lower upper margin s v = tolerance x lower upper margin s v := by
  unfold tolerance_tensor_elem tolerance
  split_ifs
  any_goals rfl
  all_goals rw [sigmoids_tensor_eq_map _ _ hs]
  all_goals cases _sigmoids (excess x lower upper / margin) v s
  all_goals rfl

lemma tolerance_tensor_eq_toleranceList (xs : List ℝ) (lower upper margin : ℝ) {s : String}
    (hs : s ≠ "cosine") (v : ℝ) :
    tolerance_tensor xs lower upper margin s v = toleranceList xs lower upper margin s v := by
  induction xs with
  | nil => rfl
  | cons head tail ih =>
    unfold tolerance_tensor toleranceList
    rw [tolerance_tensor_elem_eq_tolerance _ _ _ _ hs, ih]

lemma tolerance_tensor_elem_cosine_fails {lower upper margin : ℝ} (hlu : lower ≤ upper)
    (hm : 0 < margin) (x v : ℝ) (hv : 0 ≤ v ∧ v < 1) :
    tolerance_tensor_elem x lower upper margin ("cosine") v = Except.error Err.typeError := by
  unfold tolerance_tensor_elem
  rw [if_neg (not_lt.mpr hlu), if_neg (not_lt.mpr (le_of_lt hm)), if_neg hm.ne',
    sigmoids_tensor_cosine _ _ hv]

/-- C1 counterexample: the two backends do not fail in the same cases for every shape
kind.  With kind `cosine`, bounds `(0, 1)`, margin `1`, `value_at_margin = 0.5` and
input `2`, the array backend succeeds with the score `1/2`, while the tensor backend's
cosine path fails: the `np.where` over torch tensors at source line 166 does not
produce a torch tensor (and raises outright on gradient-tracking/CUDA tensors), so the
`torch.where` at source line 225 rejects it. -/
theorem backend_divergence_cosine :
    tolerance 2 0 1 1 ("cosine") 0.5 = Except.ok (1 / 2) ∧
    tolerance_tensor_elem 2 0 1 1 ("cosine") 0.5 = Except.error Err.typeError := by
  constructor
  · rw [tolerance_pos_margin_eq (by norm_num) one_pos]
    have hex : excess 2 0 1 / 1 = 1 := by
      unfold excess
      norm_num
    rw [hex, sigmoids_eq_body _ ((validValueAt_cosine 0.5).mpr (by norm_num)),
      sigmoidBody_cosine]
    have harc : Real.arccos (2 * (0.5:ℝ) - 1) = Real.pi / 2 := by
      norm_num [Real.arccos_zero]
    have hpi : Real.pi / 2 / Real.pi = 1 / 2 := by
      field_simp
      ring
    rw [harc, hpi, one_mul]
    rw [if_pos (by rw [abs_lt]; norm_num)]
    rw [show Real.pi * (1 / 2 : ℝ) = Real.pi / 2 by ring, Real.cos_pi_div_two]
    rw [except_map_ok, if_neg (by norm_num)]
    norm_num
  · exact tolerance_tensor_elem_cosine_fails (by norm_num) one_pos 2 0.5 (by norm_num)

/-- C1 amended: cross-backend equivalence holds for every shape kind except `cosine`:
for those kinds `_sigmoids_tensor` computes exactly `_sigmoids` (as a torch tensor),
and `tolerance_tensor` agrees with `tolerance` per element and elementwise over a
whole tensor — identical results and identical errors.  On the `cosine` path with
`margin > 0` and an in-range `value_at_margin`, the tensor backend instead fails with
the type error from the `np.where`/`torch.where` mismatch, where the array backend
succeeds. -/
theorem backend_equivalence_amended :
    (∀ (x v : ℝ) (s : String), s ≠ "cosine" →
        _sigmoids_tensor x v s = Except.map TensorResult.tensor (_sigmoids x v s)) ∧
    (∀ (x lower upper margin v : ℝ) (s : String), s ≠ "cosine" →
        tolerance_tensor_elem x lower upper margin s v = tolerance x lower upper margin s v) ∧
    (∀ (xs : List ℝ) (lower upper margin v : ℝ) (s : String), s ≠ "cosine" →
        tolerance_tensor xs lower upper margin s v = toleranceList xs lower upper margin s v) ∧
    (∀ (x lower upper margin v : ℝ), lower ≤ upper → 0 < margin → 0 ≤ v → v < 1 →
        tolerance_tensor_elem x lower upper margin ("cosine") v = Except.error Err.typeError) :=
  ⟨fun x v _ hs => sigmoids_tensor_eq_map x v hs,
   fun x lower upper margin v _ hs => tolerance_tensor_elem_eq_tolerance x lower upper margin hs v,
   fun xs lower upper margin v _ hs => tolerance_tensor_eq_toleranceList xs lower upper margin hs v,
   fun x lower upper margin v hlu hm hv0 hv1 =>
     tolerance_tensor_elem_cosine_fails hlu hm x v ⟨hv0, hv1⟩⟩

/-- Witness for the amended C1: the non-cosine conjuncts at kind `linear` and the
cosine divergence at an in-bounds input. -/
theorem backend_equivalence_amended_witness :
    _sigmoids_tensor 1 0.5 ("linear")
      = Except.map TensorResult.tensor (_sigmoids 1 0.5 ("linear")) ∧
    tolerance_tensor_elem 2 0 1 1 ("linear") 0.5 = tolerance 2 0 1 1 ("linear") 0.5 ∧
    tolerance_tensor [2] 0 1 1 ("linear") 0.5 = toleranceList [2] 0 1 1 ("linear") 0.5 ∧
    tolerance_tensor_elem 0 0 1 1 ("cosine") 0.1 = Except.error Err.typeError :=
  ⟨backend_equivalence_amended.1 1 0.5 "linear" (by decide),
   backend_equivalence_amended.2.1 2 0 1 1 0.5 "linear" (by decide),
   backend_equivalence_amended.2.2.1 [2] 0 1 1 0.5 "linear" (by decide),
   backend_equivalence_amended.2.2.2 0 0 1 1 0.1 (by norm_num) one_pos (by norm_num)
     (by norm_num)⟩

lemma toleranceList_length {lower upper margin v : ℝ} {s : String} :
    ∀ {xs ys : List ℝ}, toleranceList xs lower upper margin s v = Except.ok ys →
      ys.length = xs.length := by
  intro xs
  induction xs with
  | nil =>
    intro ys h
    unfold toleranceList at h
    obtain rfl := Except.ok.inj h
    rfl
  | cons head tail ih =>
    intro ys h
    unfold toleranceList at h
    cases he : tolerance head lower upper margin s v with
    | error e =>
      rw [he] at h
      simp at h
    | ok y =>
      rw [he] at h
      cases ht : toleranceList tail lower upper margin s v with
      | error e =>
        rw [ht] at h
        simp at h
      | ok ys2 =>
        rw [ht] at h
        obtain rfl := Except.ok.inj h
        simp [ih ht]

lemma tolerance_tensor_length {lower upper margin v : ℝ} {s : String} :
    ∀ {xs ys : List ℝ}, tolerance_tensor xs lower upper margin s v = Except.ok ys →
      ys.length = xs.length := by
  intro xs
  induction xs with
  | nil =>
    intro ys h
    unfold tolerance_tensor at h
    obtain rfl := Except.ok.inj h
    rfl
  | cons head tail ih =>
    intro ys h
    unfold tolerance_tensor at h
    cases he : tolerance_tensor_elem head lower upper margin s v with
    | error e =>
      rw [he] at h
      simp at h
    | ok y =>
      rw [he] at h
      cases ht : tolerance_tensor tail lower upper margin s v with
      | error e =>
        rw [ht] at h
        simp at h
      | ok ys2 =>
        rw [ht] at h
        obtain rfl := Except.ok.inj h
        simp [ih ht]

/-- C8: return-shape convention.  For the array backend, a scalar input yields a plain
scalar result and an array input yields an array of the same shape; the tensor backend
always returns a tensor of the same shape as its input, never collapsing a one-element
result to a plain scalar. -/
theorem return_shape_convention :
    (∀ (x lower upper margin v : ℝ) (s : String) (r : NpValue),
        toleranceNp (NpValue.scalar x) lower upper margin s v = Except.ok r →
        ∃ y, r = NpValue.scalar y) ∧
    (∀ (xs : List ℝ) (lower upper margin v : ℝ) (s : String) (r : NpValue),
        toleranceNp (NpValue.arr xs) lower upper margin s v = Except.ok r →
        ∃ ys, r = NpValue.arr ys ∧ ys.length = xs.length) ∧
    (∀ (xs : List ℝ) (lower upper margin v : ℝ) (s : String) (ys : List ℝ),
        tolerance_tensor xs lower upper margin s v = Except.ok ys →
        ys.length = xs.length) := by
  refine ⟨?_, ?_, ?_⟩
  · intro x lower upper margin v s r h
    unfold toleranceNp at h
    obtain ⟨a, _, rfl⟩ := except_map_eq_ok h
    exact ⟨a, rfl⟩
  · intro xs lower upper margin v s r h
    unfold toleranceNp at h
    obtain ⟨as, has, rfl⟩ := except_map_eq_ok h
    exact ⟨as, rfl, toleranceList_length has⟩
  · intro xs lower upper margin v s ys h
    exact tolerance_tensor_length h

/-- Witness for C8 at margin `0`, bounds `(0, 0)`: the scalar input `0` gives the
scalar `1`, the array input `[0, 3]` gives the length-2 array `[1, 0]`, and the tensor
input `[0, 3]` gives the length-2 tensor `[1, 0]`. -/
theorem return_shape_convention_witness :
    (∃ y, (NpValue.scalar 1 : NpValue) = NpValue.scalar y) ∧
    (∃ ys, (NpValue.arr [1, 0] : NpValue) = NpValue.arr ys ∧
      ys.length = [(0:ℝ), 3].length) ∧
    ([(1:ℝ), 0].length = [(0:ℝ), 3].length) := by
  have he1 : tolerance 0 0 0 0 "gaussian" 0.1 = Except.ok 1 := by
    rw [tolerance_zero_margin_eq le_rfl, if_pos ⟨le_rfl, le_rfl⟩]
  have he2 : tolerance 3 0 0 0 "gaussian" 0.1 = Except.ok 0 := by
    rw [tolerance_zero_margin_eq le_rfl, if_neg (by norm_num)]
  have h1 : toleranceNp (NpValue.scalar 0) 0 0 0 "gaussian" 0.1
      = Except.ok (NpValue.scalar 1) := by
    simp only [toleranceNp]
    rw [he1]
    rfl
  have hl1 : toleranceList [3] 0 0 0 "gaussian" 0.1 = Except.ok [0] := by
    unfold toleranceList
    rw [he2]
    rfl
  have hl : toleranceList [0, 3] 0 0 0 "gaussian" 0.1 = Except.ok [1, 0] := by
    unfold toleranceList
    rw [he1, hl1]
  have h2 : toleranceNp (NpValue.arr [0, 3]) 0 0 0 "gaussian" 0.1
      = Except.ok (NpValue.arr [1, 0]) := by
    simp only [toleranceNp]
    rw [hl]
    rfl
  have h3 : tolerance_tensor [0, 3] 0 0 0 "gaussian" 0.1 = Except.ok [1, 0] := by
    rw [tolerance_tensor_eq_toleranceList [0, 3] 0 0 0 (by decide) 0.1, hl]
  exact ⟨return_shape_convention.1 0 0 0 0 0.1 "gaussian" _ h1,
    return_shape_convention.2.1 [0, 3] 0 0 0 0.1 "gaussian" _ h2,
    return_shape_convention.2.2 [0, 3] 0 0 0 0.1 "gaussian" _ h3⟩

/-- C9 counterexample: the Sigmoid Evaluator does not map every real distance into
`[0, 1)`.  At `x = 0` (explicitly included in the claim) every shape returns exactly
`1`, which is outside `[0, 1)`; and at the negative distance `x = -1/2` the `linear`
shape with `value_at_1 = 0` returns `3/2`, outside `[0, 1]` altogether. -/
theorem sigmoids_range_counterexample :
    (_sigmoids 0 0.5 "gaussian" = Except.ok 1 ∧ ¬ ((1:ℝ) < 1)) ∧
    (_sigmoids (-(1/2)) 0 "linear" = Except.ok (3/2) ∧ ¬ ((3:ℝ)/2 < 1)) := by
  refine ⟨⟨?_, by norm_num⟩, ⟨?_, by norm_num⟩⟩
  · rw [sigmoids_eq_body _ ((validValueAt_gaussian 0.5).mpr (by norm_num)),
      sigmoidBody_gaussian]
    norm_num
  · rw [sigmoids_eq_body _ ((validValueAt_linear 0).mpr (by norm_num)),
      sigmoidBody_linear]
    rw [if_pos (by norm_num [abs_lt])]
    norm_num

/-- C9 amended: for every normalized distance `x ≥ 0`, every recognized shape kind and
every `value_at_1` valid for that kind, the Sigmoid Evaluator succeeds and its result
lies in the closed interval `[0, 1]` (it equals `1` at `x = 0`, so the interval cannot
be half-open, and negative `x` must be excluded). -/
theorem sigmoids_range_amended {s : String} {v x : ℝ} (hs : recognized s)
    (hv : validValueAt s v) (hx : 0 ≤ x) :
    ∃ r, _sigmoids x v s = Except.ok r ∧ 0 ≤ r ∧ r ≤ 1 := by
  obtain ⟨r, h, h0, h1, _⟩ := sigmoids_bounds hs hv hx
  exact ⟨r, h, h0, h1⟩

/-- Witness for the amended C9 at `x = 2`, kind `tanh_squared`, `value_at_1 = 0.5`. -/
theorem sigmoids_range_amended_witness :
    ∃ r, _sigmoids 2 0.5 "tanh_squared" = Except.ok r ∧ 0 ≤ r ∧ r ≤ 1 :=
  sigmoids_range_amended (Or.inr (Or.inr (Or.inr (Or.inr (Or.inr (Or.inr (Or.inr rfl)))))))
    ((validValueAt_tanh_squared 0.5).mpr (by norm_num)) (by norm_num)

end HumanoidReward
